import Mathlib

/-!
# courier: remote command execution over an SSH transport

A shallow embedding of `courier.go` (package `courier`).

* Go strings are Lean `String`s (valid Unicode text; every byte the code
  inspects, `=` and `%`, is ASCII, so scanning characters and scanning bytes
  agree on such text).
* A Go `error` is an `Option String`: `none` is `nil`, `some m` is an error
  whose `Error()` text is `m`.
* A Go `(value, error)` result of which exactly one half is meaningful is an
  `Except String _`.
* The SSH library (`golang.org/x/crypto/ssh`) is the environment.  It is a
  `Transport`: for every operation, a function from the history of transport
  events so far to the answer of that operation.  Quantifying over all
  `Transport`s quantifies over every deterministic behaviour of the remote side.
* Every method returns, next to its Go result, the list of transport events it
  issued, in order.
* No method of `Courier` assigns to the receiver, so the handle is an
  immutable value.
* `fmt.Errorf` with a constant format made of literal text and `%s` verbs, one
  string or error operand each, is the concatenation of the pieces.
  `fmt.Errorf(s)` with a single argument is `fmt.Errorf` below, the
  formatting loop of Go run without operands.
* `(*ssh.Client).NewSession` reads the connection embedded in the client, so
  on a nil client it panics with a nil pointer dereference.
* `NewCourierWithPassword` only dials and stores the client; the properties
  below start from a handle, live or nil.
-/

namespace courier

/-! ## Go run-time and standard library -/

/-- Outcome of a Go call: an ordinary return or a run-time panic. -/
inductive Res (α : Type) where
  | ret (a : α)
  | panic (msg : String)
  deriving Repr, DecidableEq

/-- Text of the run-time panic raised by dereferencing a nil pointer. -/
def nilDereference : String :=
  "runtime error: invalid memory address or nil pointer dereference"

namespace strings

/-- Pieces of `s` between occurrences of the one-character separator `sep`,
on character lists. -/
def splitChars (sep : Char) : List Char → List (List Char)
  | [] => [[]]
  | c :: cs =>
    if c = sep then [] :: splitChars sep cs
    else
      match splitChars sep cs with
      | [] => [[c]]
      | p :: ps => (c :: p) :: ps

/-- Go `strings.Split(s, sep)` for a one-character separator (the source only
calls it with `"="`): the `n+1` pieces around the `n` occurrences of `sep`. -/
def Split (s : String) (sep : Char) : List String :=
  (splitChars sep s.data).map String.mk

end strings

namespace fmt

/-- Go `fmt.tooLarge`: the bound on widths, precisions and argument indices. -/
def tooLarge (x : Nat) : Bool := decide (x > 1000000)

/-- Loop of Go `fmt.parsenum` on the characters of `s[start:end]`: the number
read, whether a digit was seen, and what is left of `s[start:end]`.  A number
that is too large gives up and skips to `end`. -/
def parsenumLoop : List Char → Nat → Bool → Nat × Bool × List Char
  | [], num, isnum => (num, isnum, [])
  | c :: cs, num, isnum =>
    if '0' ≤ c ∧ c ≤ '9' then
      if tooLarge num then (0, false, [])
      else parsenumLoop cs (num * 10 + (c.toNat - '0'.toNat)) true
    else (num, isnum, c :: cs)

/-- Go `fmt.parsenum(s, start, end)` on the characters of `s[start:end]`. -/
def parsenum (seg : List Char) : Nat × Bool × List Char :=
  parsenumLoop seg 0 false

/-- Go `fmt.parseArgNumber(format)` for a `format` that starts with `[`:
what is left of `format` after the `wid` characters it consumes, and `ok`.
The index itself is not returned: with no operand every index is out of
range. -/
def parseArgNumber (format : List Char) : List Char × Bool :=
  if format.length < 3 then (format.drop 1, false)
  else
    let body := format.drop 1
    let seg := body.takeWhile (fun c => c ≠ ']')
    match body.dropWhile (fun c => c ≠ ']') with
    | [] => (format.drop 1, false)
    | _ :: rest =>
      let r := parsenum seg
      if r.2.1 = false ∨ r.2.2 ≠ [] then (rest, false) else (rest, true)

/-- State of one directive of `doPrintf`: the unread format, the flags
`afterIndex` and `goodArgNum`, and the text written so far for the directive. -/
structure Directive where
  rest : List Char
  afterIndex : Bool
  goodArgNum : Bool
  out : List Char

/-- Go `(*pp).argNumber(argNum, format, i, numArgs)` with `numArgs = 0`: an
index `[n]` is consumed and, being out of range, clears `goodArgNum`. -/
def argNumber (d : Directive) : Directive :=
  match d.rest with
  | '[' :: _ =>
    let r := parseArgNumber d.rest
    ⟨r.1, r.2, false, d.out⟩
  | _ => ⟨d.rest, false, d.goodArgNum, d.out⟩

/-- The flag characters of a directive. -/
def isFlag (c : Char) : Bool :=
  c = '#' ∨ c = '0' ∨ c = '+' ∨ c = '-' ∨ c = ' '

/-- Width part of a directive: `*` finds no operand and writes
`%!(BADWIDTH)`, otherwise digits are read. -/
def width (d : Directive) : Directive :=
  match d.rest with
  | '*' :: r => ⟨r, false, d.goodArgNum, d.out ++ "%!(BADWIDTH)".data⟩
  | _ =>
    let r := parsenum d.rest
    ⟨r.2.2, d.afterIndex, if d.afterIndex ∧ r.2.1 then false else d.goodArgNum, d.out⟩

/-- Precision part of a directive.  Go reads one only under the guard
`i+1 < end && format[i] == '.'`: the next character is `.` and it is not the
last character of the format.  A `.` that ends the format is left for the
verb. -/
def precision (d : Directive) : Directive :=
  match d.rest with
  | '.' :: c :: r =>
    let d1 := argNumber
      ⟨c :: r, d.afterIndex, if d.afterIndex then false else d.goodArgNum, d.out⟩
    match d1.rest with
    | '*' :: r1 => ⟨r1, false, d1.goodArgNum, d1.out ++ "%!(BADPREC)".data⟩
    | _ => ⟨(parsenum d1.rest).2.2, d1.afterIndex, d1.goodArgNum, d1.out⟩
  | _ => d

/-- The verb of a directive: `%%` writes a percent sign; any other verb has
no operand to print (`BADINDEX` after a bad index, `MISSING` otherwise); a
format that ends before the verb writes `%!(NOVERB)`. -/
def verb (d : Directive) : List Char × List Char :=
  match d.rest with
  | [] => (d.out ++ "%!(NOVERB)".data, [])
  | v :: rest =>
    if v = '%' then (d.out ++ ['%'], rest)
    else if d.goodArgNum = false then (d.out ++ "%!".data ++ [v] ++ "(BADINDEX)".data, rest)
    else (d.out ++ "%!".data ++ [v] ++ "(MISSING)".data, rest)

/-- One directive of `doPrintf` called without operands, from the character
after `%`: flags, argument index, width, precision, argument index, verb.
Returns the text written and the unread format. -/
def directive (format : List Char) : List Char × List Char :=
  let d0 : Directive := ⟨format.dropWhile isFlag, false, true, []⟩
  let d1 := argNumber d0
  let d2 := width d1
  let d3 := precision d2
  let d4 := if d3.afterIndex then d3 else argNumber d3
  verb d4

/-- Go `(*pp).doPrintf(format, a)` with no operand (`len(a) = 0`): literal text
is copied up to the next `%`, then one directive is processed.  Every round
consumes at least the `%`, so `fuel` above the length of the format is never
exhausted. -/
def doPrintf : Nat → List Char → List Char
  | 0, _ => []
  | fuel + 1, format =>
    let lit := format.takeWhile (fun c => c ≠ '%')
    match format.dropWhile (fun c => c ≠ '%') with
    | [] => lit
    | _ :: r =>
      let d := directive r
      lit ++ d.1 ++ doPrintf fuel d.2

/-- Go `fmt.Sprintf(format)` called with a format and no operand. -/
def Sprintf (format : String) : String :=
  String.mk (doPrintf (format.length + 1) format.data)

/-- Go `fmt.Errorf(format)` called with a format and no operand: an error
whose text is `Sprintf(format)`. -/
def Errorf (format : String) : Option String :=
  some (Sprintf format)

end fmt

/-! ## The SSH library as environment -/

namespace ssh

/-- Terminal mode opcode `ssh.ECHO`. -/
def ECHO : Nat := 53

/-- Terminal mode opcode `ssh.TTY_OP_ISPEED`. -/
def TTY_OP_ISPEED : Nat := 128

/-- Terminal mode opcode `ssh.TTY_OP_OSPEED`. -/
def TTY_OP_OSPEED : Nat := 129

/-- Go `ssh.TerminalModes` (`map[uint8]uint32`), as the entries of the
literal in the order written. -/
abbrev TerminalModes := List (Nat × Nat)

/-- A connected `*ssh.Client`. -/
structure Client where
  addr : String
  deriving Repr, DecidableEq

/-- What `(*ssh.Session).Run` leaves behind: its error, and the text it wrote
to the session's `Stdout` and `Stderr` writers. -/
structure RunResult where
  err : Option String
  stdout : String
  stderr : String
  deriving Repr, DecidableEq

deriving instance DecidableEq for Except

/-- One operation of the SSH library together with its answer.  Sessions are
named by the number the library gave them.  `RequestPty` carries the
arguments of `(*Session).RequestPty(term string, h, w int, termmodes)`:
`h` is the height in rows and `w` the width in columns. -/
inductive Event where
  | NewSession (res : Except String Nat)
  | RequestPty (sid : Nat) (term : String) (h w : Nat) (modes : TerminalModes)
      (err : Option String)
  | Setenv (sid : Nat) (name value : String) (err : Option String)
  | Run (sid : Nat) (cmd : String) (res : RunResult)
  | SessionClose (sid : Nat)
  | ClientClose (err : Option String)
  deriving Repr, DecidableEq

/-- Behaviour of the SSH library and of the remote host: the answer to every
operation, given the events that happened before it. -/
structure Transport where
  NewSession : List Event → Except String Nat
  RequestPty : List Event → Nat → String → Nat → Nat → TerminalModes → Option String
  Setenv : List Event → Nat → String → String → Option String
  Run : List Event → Nat → String → RunResult
  Close : List Event → Option String

end ssh

open ssh

/-! ## courier.go -/

/-- Go `type Courier struct { SSHConnection *ssh.Client }`; `none` is a nil
pointer. -/
structure Courier where
  SSHConnection : Option Client
  deriving Repr, DecidableEq

/-- Go `(c *Courier) NewSession()`.  There is no nil check: with a nil
`SSHConnection` the call `c.SSHConnection.NewSession()` dereferences the nil
client.  `hist` is the history of transport events before the call; the
second component is the list of events the call issues. -/
def Courier.NewSession (c : Courier) (t : Transport) (hist : List Event) :
    Res (Except String Nat) × List Event :=
  match c.SSHConnection with
  | none => (Res.panic nilDereference, [])
  | some _ =>
    let r := t.NewSession hist
    let ev1 := [Event.NewSession r]
    match r with
    | Except.error err =>
      (Res.ret (Except.error ("Error creating new SSH session: " ++ err)), ev1)
    | Except.ok sshSession =>
      let sshModes : TerminalModes :=
        [(ECHO, 0), (TTY_OP_ISPEED, 14400), (TTY_OP_OSPEED, 14400)]
      let perr := t.RequestPty (hist ++ ev1) sshSession "xterm" 80 40 sshModes
      let ev2 := ev1 ++ [Event.RequestPty sshSession "xterm" 80 40 sshModes perr]
      match perr with
      | some err =>
        (Res.ret (Except.error ("Error request for pseudo terminal failed: " ++ err)),
          ev2 ++ [Event.SessionClose sshSession])
      | none => (Res.ret (Except.ok sshSession), ev2)

/-- Go `(c *Courier) Run(cmd string) (string, error)`.  The deferred
`sshSession.Close()` is the last event on each of the three returns that
follow the `defer`. -/
def Courier.Run (c : Courier) (t : Transport) (cmd : String) (hist : List Event) :
    Res (String × Option String) × List Event :=
  match c.SSHConnection with
  | none => (Res.ret ("", fmt.Errorf "Error getting SSH connection"), [])
  | some _ =>
    match c.NewSession t hist with
    | (Res.panic msg, ev1) => (Res.panic msg, ev1)
    | (Res.ret (Except.error err), ev1) =>
      (Res.ret ("", some ("Error creating new SSH session: " ++ err)), ev1)
    | (Res.ret (Except.ok sshSession), ev1) =>
      let rr := t.Run (hist ++ ev1) sshSession cmd
      let evs := ev1 ++ [Event.Run sshSession cmd rr, Event.SessionClose sshSession]
      match rr.err with
      | some err => (Res.ret ("", some ("Error running: " ++ cmd ++ ": " ++ err)), evs)
      | none =>
        let outString := rr.stdout
        let errString := rr.stderr
        if errString ≠ "" then (Res.ret (outString, fmt.Errorf errString), evs)
        else (Res.ret (outString, none), evs)

/-- The loop `for _, e := range env` of `RunWithEnv`: an entry that
`strings.Split(e, "=")` does not cut into exactly two pieces is skipped; the
two pieces of any other entry go to `Setenv`, and the first rejection ends
the loop with the error to return.  Returns that error (or `none` when the
loop runs to its end) and the events issued. -/
def envLoop (t : Transport) (sshSession : Nat) :
    List String → List Event → Option String × List Event
  | [], _ => (none, [])
  | e :: rest, hist =>
    match strings.Split e '=' with
    | [name, value] =>
      let serr := t.Setenv hist sshSession name value
      let ev := Event.Setenv sshSession name value serr
      match serr with
      | some err => (some ("Error setting env for cmd: " ++ err), [ev])
      | none =>
        let r := envLoop t sshSession rest (hist ++ [ev])
        (r.1, ev :: r.2)
    | _ => envLoop t sshSession rest hist

/-- Go `(c *Courier) RunWithEnv(cmd string, env []string) (string, error)`.
The deferred `sshSession.Close()` is the last event on each of the four
returns that follow the `defer`. -/
def Courier.RunWithEnv (c : Courier) (t : Transport) (cmd : String) (env : List String)
    (hist : List Event) : Res (String × Option String) × List Event :=
  match c.SSHConnection with
  | none => (Res.ret ("", fmt.Errorf "Error getting SSH connection"), [])
  | some _ =>
    match c.NewSession t hist with
    | (Res.panic msg, ev1) => (Res.panic msg, ev1)
    | (Res.ret (Except.error err), ev1) =>
      (Res.ret ("", some ("Error creating new SSH session: " ++ err)), ev1)
    | (Res.ret (Except.ok sshSession), ev1) =>
      match envLoop t sshSession env (hist ++ ev1) with
      | (some err, ev2) =>
        (Res.ret ("", some err), ev1 ++ ev2 ++ [Event.SessionClose sshSession])
      | (none, ev2) =>
        let rr := t.Run (hist ++ ev1 ++ ev2) sshSession cmd
        let evs := ev1 ++ ev2 ++ [Event.Run sshSession cmd rr, Event.SessionClose sshSession]
        match rr.err with
        | some err => (Res.ret ("", some ("Error running: " ++ cmd ++ ": " ++ err)), evs)
        | none =>
          let outString := rr.stdout
          let errString := rr.stderr
          if errString ≠ "" then (Res.ret (outString, fmt.Errorf errString), evs)
          else (Res.ret (outString, none), evs)

/-- Go `(c *Courier) Close() error`.  The field `SSHConnection` is left as it
is. -/
def Courier.Close (c : Courier) (t : Transport) (hist : List Event) :
    Option String × List Event :=
  match c.SSHConnection with
  | none => (fmt.Errorf "Error getting SSH connection", [])
  | some _ =>
    let err := t.Close hist
    (err, [Event.ClientClose err])

/-! ## Vocabulary of the properties -/

/-- The terminal modes `NewSession` asks for: echo off, both speeds 14400. -/
def sshModes : TerminalModes :=
  [(ECHO, 0), (TTY_OP_ISPEED, 14400), (TTY_OP_OSPEED, 14400)]

/-- The pty request `NewSession` issues on session `sid`, with its answer:
`RequestPty("xterm", 80, 40, sshModes)`, that is `h = 80`, `w = 40`. -/
def ptyRequest (sid : Nat) (err : Option String) : Event :=
  Event.RequestPty sid "xterm" 80 40 sshModes err

/-- A live handle. -/
def liveCourier : Courier := ⟨some ⟨"example.org:22"⟩⟩

/-- A handle that was never connected. -/
def nilCourier : Courier := ⟨none⟩

/-- The text of the no-connection error. -/
def noConnection : String := "Error getting SSH connection"

/-- The sessions an event list obtained from the transport. -/
def obtainedSessions (evs : List Event) : List Nat :=
  evs.filterMap (fun e => match e with
    | Event.NewSession (Except.ok sid) => some sid
    | _ => none)

/-- The sessions an event list closed, one entry per `Close`. -/
def closedSessions (evs : List Event) : List Nat :=
  evs.filterMap (fun e => match e with
    | Event.SessionClose sid => some sid
    | _ => none)

/-- The `(name, value)` pairs of the `Setenv` requests of an event list. -/
def setenvRequests (evs : List Event) : List (String × String) :=
  evs.filterMap (fun e => match e with
    | Event.Setenv _ name value _ => some (name, value)
    | _ => none)

/-- The commands an event list executed. -/
def executedCommands (evs : List Event) : List String :=
  evs.filterMap (fun e => match e with
    | Event.Run _ cmd _ => some cmd
    | _ => none)

/-- Step of the per-command protocol an event belongs to: session creation,
terminal negotiation, environment binding, command execution, release. -/
def ssh.Event.phase : Event → Nat
  | Event.NewSession _ => 0
  | Event.RequestPty _ _ _ _ _ _ => 1
  | Event.Setenv _ _ _ _ => 2
  | Event.Run _ _ _ => 3
  | Event.SessionClose _ => 4
  | Event.ClientClose _ => 5

/-- The binding `RunWithEnv` sends for the entry `e`, if it sends one: the two
pieces of `strings.Split(e, "=")` when there are exactly two. -/
def binding (e : String) : Option (String × String) :=
  match strings.Split e '=' with
  | [name, value] => some (name, value)
  | _ => none

/-- The bindings `RunWithEnv` sends for `env` when none is rejected. -/
def bindings (env : List String) : List (String × String) :=
  env.filterMap binding

/-- Accepted `Setenv` events for a list of bindings. -/
def acceptedEvents (sid : Nat) (bs : List (String × String)) : List Event :=
  bs.map (fun b => Event.Setenv sid b.1 b.2 none)

/-- A transport on which everything succeeds: sessions are numbered `sid`,
and every command yields `rr`. -/
def Transport.always (sid : Nat) (rr : RunResult) : Transport :=
  ⟨fun _ => Except.ok sid, fun _ _ _ _ _ _ => none, fun _ _ _ _ => none,
    fun _ _ _ => rr, fun _ => none⟩

/-- A transport like `Transport.always`, whose remote refuses to set the
variable `name`. -/
def Transport.refusing (sid : Nat) (rr : RunResult) (name cause : String) : Transport :=
  ⟨fun _ => Except.ok sid, fun _ _ _ _ _ _ => none,
    fun _ _ n _ => if n = name then some cause else none,
    fun _ _ _ => rr, fun _ => none⟩

/-- Whether the client was closed in the history. -/
def clientClosed (hist : List Event) : Bool :=
  hist.any (fun e => match e with
    | Event.ClientClose _ => true
    | _ => false)

/-- A transport whose connection, once closed, refuses everything: a further
`Close` and a further `NewSession` both fail. -/
def Transport.closable (sid : Nat) (rr : RunResult) : Transport :=
  ⟨fun hist => if clientClosed hist then Except.error "EOF" else Except.ok sid,
    fun _ _ _ _ _ _ => none, fun _ _ _ _ => none, fun _ _ _ => rr,
    fun hist => if clientClosed hist then some "use of closed network connection" else none⟩

/-- The pty request as the specification words it, 80 columns by 40 rows:
width `w = 80`, height `h = 40`. -/
def specPtyRequest (sid : Nat) (err : Option String) : Event :=
  Event.RequestPty sid "xterm" 40 80 sshModes err

/-- Release discipline of one call: the sessions closed are exactly the
sessions obtained, each once; at most one session is obtained; and the close
of an obtained session is the last operation of the call. -/
def ReleasedOnce (evs : List Event) : Prop :=
  closedSessions evs = obtainedSessions evs ∧
  (obtainedSessions evs).length ≤ 1 ∧
  ∀ sid ∈ obtainedSessions evs, evs.getLast? = some (Event.SessionClose sid)

/-- Order of the operations of one call, for a given wording `pty` of the pty
request: every `Setenv` and every command execution has a granted pty request
before it; no `Setenv` follows a command execution; every pty request of the
call is worded as `pty`; and after a refused pty request there is neither a
`Setenv` nor a command execution. -/
def ProtocolOrder (pty : Nat → Option String → Event) (evs : List Event) : Prop :=
  (∀ pre e post, evs = pre ++ e :: post → e.phase = 2 ∨ e.phase = 3 →
    ∃ sid, pty sid none ∈ pre) ∧
  (∀ pre e post, evs = pre ++ e :: post → e.phase = 3 → ∀ x ∈ post, x.phase ≠ 2) ∧
  (∀ e ∈ evs, e.phase = 1 → ∃ sid err, e = pty sid err) ∧
  (∀ sid term h w modes cause, Event.RequestPty sid term h w modes (some cause) ∈ evs →
    ∀ x ∈ evs, x.phase ≠ 2 ∧ x.phase ≠ 3)

/-- Whether the entry has exactly one `=`. -/
def exactlyOneEq (e : String) : Bool :=
  decide (e.data.count '=' = 1)

/-- The text before and the text after the first `=` of an entry. -/
def cut (e : String) : String × String :=
  (String.mk (e.data.takeWhile (fun c => c ≠ '=')),
    String.mk ((e.data.dropWhile (fun c => c ≠ '=')).drop 1))

/-- Well-formed entry in the words of the specification: exactly one `=`
separating two non-empty segments. -/
def specWellFormed (e : String) : Bool :=
  exactlyOneEq e && decide ((cut e).1 ≠ "") && decide ((cut e).2 ≠ "")

/-- The bindings the specification has `RunWithEnv` send for `env`. -/
def specBindings (env : List String) : List (String × String) :=
  (env.filter specWellFormed).map cut

/-- What `Run` and `RunWithEnv` return once `sshSession.Run(cmd)` has come
back with `rr` (courier.go:54-64 and 95-105): the wrapped cause when the
execution failed, the captured stdout with `fmt.Errorf(stderr)` when stderr is
not empty, the captured stdout and nil otherwise. -/
def classify (cmd : String) (rr : RunResult) : String × Option String :=
  match rr.err with
  | some err => ("", some ("Error running: " ++ cmd ++ ": " ++ err))
  | none => if rr.stderr ≠ "" then (rr.stdout, fmt.Errorf rr.stderr) else (rr.stdout, none)

/-! ## Properties -/

/-- A format without `%` is copied as it is, whatever the fuel left. -/
theorem fmt.doPrintf_literal (format : List Char) (h : '%' ∉ format) (fuel : Nat) :
    fmt.doPrintf (fuel + 1) format = format := by
  have h1 : ∀ c ∈ format, (decide (c ≠ '%')) = true := by
    intro c hc
    simp only [ne_eq, decide_not, Bool.not_eq_true', decide_eq_false_iff_not]
    rintro rfl
    exact h hc
  have ht : format.takeWhile (fun c => decide (c ≠ '%')) = format :=
    List.takeWhile_eq_self_iff.mpr h1
  have hd : format.dropWhile (fun c => decide (c ≠ '%')) = [] :=
    List.dropWhile_eq_nil_iff.mpr h1
  simp only [fmt.doPrintf, ht, hd]

/-- `fmt.Errorf` of a text without `%` is an error with exactly that text. -/
theorem fmt.Errorf_literal (s : String) (h : '%' ∉ s.data) :
    fmt.Errorf s = some s := by
  simp only [fmt.Errorf, fmt.Sprintf, fmt.doPrintf_literal s.data h]

/-- The no-connection error has the text of its format. -/
theorem fmt.Errorf_noConnection :
    fmt.Errorf "Error getting SSH connection" = some noConnection := by
  decide

/-- C3: `Run` and `RunWithEnv` on a handle without connection return the
empty output and the no-connection error and issue no transport operation. -/
theorem Run_no_connection (t : Transport) (cmd : String) (env : List String)
    (hist : List Event) :
    nilCourier.Run t cmd hist = (Res.ret ("", some "Error getting SSH connection"), []) ∧
    nilCourier.RunWithEnv t cmd env hist =
      (Res.ret ("", some "Error getting SSH connection"), []) := by
  constructor
  · simp only [Courier.Run, nilCourier, fmt.Errorf_noConnection, noConnection]
  · simp only [Courier.RunWithEnv, nilCourier, fmt.Errorf_noConnection, noConnection]

/-- C5 (the code at the failing input): `NewSession` on a handle without
connection does not return an error value; it panics on the nil client. -/
theorem NewSession_nil_panics (t : Transport) (hist : List Event) :
    nilCourier.NewSession t hist = (Res.panic nilDereference, []) := by
  simp only [Courier.NewSession, nilCourier]

/-- C9: with an empty environment `RunWithEnv` issues the same transport
events and returns the same result as `Run`, on every handle and for every
behaviour of the transport. -/
theorem RunWithEnv_nil_eq_Run (c : Courier) (t : Transport) (cmd : String)
    (hist : List Event) :
    c.RunWithEnv t cmd [] hist = c.Run t cmd hist := by
  unfold Courier.RunWithEnv Courier.Run
  cases c.SSHConnection with
  | none => rfl
  | some conn =>
    simp only
    cases hN : c.NewSession t hist with
    | mk r ev1 =>
      cases r with
      | panic msg => rfl
      | ret x =>
        cases x with
        | error err => rfl
        | ok sid => simp [envLoop]

/-- On a live handle `NewSession` returns the session the transport gave once
the pty request was granted, having issued exactly these two operations. -/
theorem NewSession_ok (c : Courier) (t : Transport) (hist : List Event) (conn : Client)
    (sid : Nat) (hc : c.SSHConnection = some conn)
    (hs : t.NewSession hist = Except.ok sid)
    (hp : t.RequestPty (hist ++ [Event.NewSession (Except.ok sid)]) sid "xterm" 80 40
      sshModes = none) :
    c.NewSession t hist =
      (Res.ret (Except.ok sid), [Event.NewSession (Except.ok sid), ptyRequest sid none]) := by
  simp only [sshModes] at hp
  simp [Courier.NewSession, hc, hs, hp, ptyRequest, sshModes]

/-- On a live handle whose transport refuses the session, `NewSession`
returns the wrapped cause and has issued that one operation. -/
theorem NewSession_refused (c : Courier) (t : Transport) (hist : List Event) (conn : Client)
    (cause : String) (hc : c.SSHConnection = some conn)
    (hs : t.NewSession hist = Except.error cause) :
    c.NewSession t hist =
      (Res.ret (Except.error ("Error creating new SSH session: " ++ cause)),
        [Event.NewSession (Except.error cause)]) := by
  simp [Courier.NewSession, hc, hs]

/-- On a live handle whose pty request is refused, `NewSession` closes the
session it got and returns the wrapped cause. -/
theorem NewSession_pty_refused (c : Courier) (t : Transport) (hist : List Event)
    (conn : Client) (sid : Nat) (cause : String) (hc : c.SSHConnection = some conn)
    (hs : t.NewSession hist = Except.ok sid)
    (hp : t.RequestPty (hist ++ [Event.NewSession (Except.ok sid)]) sid "xterm" 80 40
      sshModes = some cause) :
    c.NewSession t hist =
      (Res.ret (Except.error ("Error request for pseudo terminal failed: " ++ cause)),
        [Event.NewSession (Except.ok sid), ptyRequest sid (some cause),
          Event.SessionClose sid]) := by
  simp only [sshModes] at hp
  simp [Courier.NewSession, hc, hs, hp, ptyRequest, sshModes]

/-- C10: when session creation, the pty request and the remote execution all
succeed with captured stdout `o` and an empty captured stderr, `Run` returns
exactly `o` and a nil error. -/
theorem Run_clean_success (c : Courier) (t : Transport) (cmd : String) (hist : List Event)
    (conn : Client) (sid : Nat) (o : String)
    (hc : c.SSHConnection = some conn)
    (hs : t.NewSession hist = Except.ok sid)
    (hp : t.RequestPty (hist ++ [Event.NewSession (Except.ok sid)]) sid "xterm" 80 40
      sshModes = none)
    (hr : t.Run (hist ++ [Event.NewSession (Except.ok sid), ptyRequest sid none]) sid cmd =
      ⟨none, o, ""⟩) :
    (c.Run t cmd hist).1 = Res.ret (o, none) := by
  have hN := NewSession_ok c t hist conn sid hc hs hp
  simp [Courier.Run, hc, hN, hr]

/-- C10, witness: `echo hello` on a transport that answers with the line
`hello` gives that line and no error. -/
theorem Run_clean_success_witness :
    (liveCourier.Run (Transport.always 1 ⟨none, "hello\n", ""⟩) "echo hello" []).1 =
      Res.ret ("hello\n", none) :=
  Run_clean_success liveCourier (Transport.always 1 ⟨none, "hello\n", ""⟩) "echo hello" []
    ⟨"example.org:22"⟩ 1 "hello\n" rfl rfl rfl rfl

/-- C2 (the code at the failing input): the remote command succeeds with
stdout `out` and stderr `done: 100%`; the error `Run` and `RunWithEnv` return
does not carry that text but `done: 100%!(NOVERB)`, since the text went
through `fmt.Errorf` as a format. -/
theorem Run_stderr_as_format :
    (liveCourier.Run (Transport.always 1 ⟨none, "out", "done: 100%"⟩) "fetch" []).1 =
      Res.ret ("out", some "done: 100%!(NOVERB)") ∧
    (liveCourier.RunWithEnv (Transport.always 1 ⟨none, "out", "done: 100%"⟩) "fetch" [] []).1 =
      Res.ret ("out", some "done: 100%!(NOVERB)") := by
  constructor <;> decide

/-- A captured stderr text without `%` is returned verbatim as the error text,
next to the captured stdout. -/
theorem Run_stderr_verbatim (c : Courier) (t : Transport) (cmd : String) (hist : List Event)
    (conn : Client) (sid : Nat) (o s : String)
    (hc : c.SSHConnection = some conn)
    (hs : t.NewSession hist = Except.ok sid)
    (hp : t.RequestPty (hist ++ [Event.NewSession (Except.ok sid)]) sid "xterm" 80 40
      sshModes = none)
    (hr : t.Run (hist ++ [Event.NewSession (Except.ok sid), ptyRequest sid none]) sid cmd =
      ⟨none, o, s⟩)
    (hne : s ≠ "") (hpc : '%' ∉ s.data) :
    (c.Run t cmd hist).1 = Res.ret (o, some s) := by
  have hN := NewSession_ok c t hist conn sid hc hs hp
  simp [Courier.Run, hc, hN, hr, hne, fmt.Errorf_literal s hpc]

/-- The entries that send a binding are those `strings.Split` cuts in two. -/
theorem binding_eq_some (e name value : String) :
    binding e = some (name, value) ↔ strings.Split e '=' = [name, value] := by
  unfold binding
  split
  · rename_i n v h
    rw [h]
    simp
  · rename_i h
    constructor
    · intro h1; simp at h1
    · intro h1; exact absurd h1 (h name value)

/-- The env loop skips an entry that sends no binding. -/
theorem envLoop_skip (t : Transport) (sid : Nat) (e : String) (rest : List String)
    (hist : List Event) (h : binding e = none) :
    envLoop t sid (e :: rest) hist = envLoop t sid rest hist := by
  unfold binding at h
  rw [envLoop]
  split
  · rename_i n v h1
    rw [h1] at h
    simp at h
  · rfl

/-- The env loop goes on after an accepted `Setenv`. -/
theorem envLoop_accept (t : Transport) (sid : Nat) (e name value : String)
    (rest : List String) (hist : List Event) (h : binding e = some (name, value))
    (ha : t.Setenv hist sid name value = none) :
    envLoop t sid (e :: rest) hist =
      ((envLoop t sid rest (hist ++ [Event.Setenv sid name value none])).1,
        Event.Setenv sid name value none ::
          (envLoop t sid rest (hist ++ [Event.Setenv sid name value none])).2) := by
  rw [binding_eq_some] at h
  rw [envLoop]
  simp only [h, ha]

/-- The env loop ends at a refused `Setenv`. -/
theorem envLoop_reject (t : Transport) (sid : Nat) (e name value cause : String)
    (rest : List String) (hist : List Event) (h : binding e = some (name, value))
    (hr : t.Setenv hist sid name value = some cause) :
    envLoop t sid (e :: rest) hist =
      (some ("Error setting env for cmd: " ++ cause),
        [Event.Setenv sid name value (some cause)]) := by
  rw [binding_eq_some] at h
  rw [envLoop]
  simp only [h, hr]

/-- Every event of the env loop is a `Setenv` on the session of the loop. -/
theorem envLoop_events (t : Transport) (sid : Nat) (env : List String) :
    ∀ hist, ∀ e ∈ (envLoop t sid env hist).2, ∃ k v r, e = Event.Setenv sid k v r := by
  induction env with
  | nil => intro hist e he; simp [envLoop] at he
  | cons x rest ih =>
    intro hist e he
    cases hb : binding x with
    | none =>
      rw [envLoop_skip t sid x rest hist hb] at he
      exact ih _ e he
    | some kv =>
      obtain ⟨k, v⟩ := kv
      cases hs : t.Setenv hist sid k v with
      | none =>
        rw [envLoop_accept t sid x k v rest hist hb hs] at he
        simp only [List.mem_cons] at he
        rcases he with he | he
        · exact ⟨_, _, _, he⟩
        · exact ih _ e he
      | some cause =>
        rw [envLoop_reject t sid x k v cause rest hist hb hs] at he
        simp only [List.mem_singleton] at he
        exact ⟨_, _, _, he⟩

/-- `Run` is `RunWithEnv` without entries. -/
theorem Run_eq_RunWithEnv_nil (c : Courier) (t : Transport) (cmd : String)
    (hist : List Event) :
    c.Run t cmd hist = c.RunWithEnv t cmd [] hist := by
  unfold Courier.RunWithEnv Courier.Run
  cases c.SSHConnection with
  | none => rfl
  | some conn =>
    simp only
    cases hN : c.NewSession t hist with
    | mk r ev1 =>
      cases r with
      | panic msg => rfl
      | ret x =>
        cases x with
        | error err => rfl
        | ok sid => simp [envLoop]

/-- The four shapes of the events of one `RunWithEnv` call: nothing (no
connection); a refused session; a refused pty with the session closed; or
session, granted pty, `Setenv` requests, then either the close alone (a
`Setenv` was refused) or the command and the close. -/
theorem RunWithEnv_events_shape (c : Courier) (t : Transport) (cmd : String)
    (env : List String) (hist : List Event) :
    (c.RunWithEnv t cmd env hist).2 = [] ∨
    (∃ cause, (c.RunWithEnv t cmd env hist).2 = [Event.NewSession (Except.error cause)]) ∨
    (∃ sid cause, (c.RunWithEnv t cmd env hist).2 =
      [Event.NewSession (Except.ok sid), ptyRequest sid (some cause),
        Event.SessionClose sid]) ∨
    (∃ sid ses tail, (c.RunWithEnv t cmd env hist).2 =
        Event.NewSession (Except.ok sid) :: ptyRequest sid none :: (ses ++ tail) ∧
      (∀ e ∈ ses, ∃ k v r, e = Event.Setenv sid k v r) ∧
      (tail = [Event.SessionClose sid] ∨
        ∃ rr, tail = [Event.Run sid cmd rr, Event.SessionClose sid])) := by
  cases hc : c.SSHConnection with
  | none => left; simp [Courier.RunWithEnv, hc]
  | some conn =>
    right
    cases hs : t.NewSession hist with
    | error cause =>
      left
      exact ⟨cause, by simp [Courier.RunWithEnv, hc, NewSession_refused c t hist conn cause hc hs]⟩
    | ok sid =>
      right
      cases hp : t.RequestPty (hist ++ [Event.NewSession (Except.ok sid)]) sid "xterm" 80 40
          sshModes with
      | some cause =>
        left
        exact ⟨sid, cause, by
          simp [Courier.RunWithEnv, hc, NewSession_pty_refused c t hist conn sid cause hc hs hp]⟩
      | none =>
        right
        have hN := NewSession_ok c t hist conn sid hc hs hp
        have hev := envLoop_events t sid env
          (hist ++ [Event.NewSession (Except.ok sid), ptyRequest sid none])
        cases hl : envLoop t sid env
            (hist ++ [Event.NewSession (Except.ok sid), ptyRequest sid none]) with
        | mk lerr ev2 =>
          rw [hl] at hev
          refine ⟨sid, ev2, ?_⟩
          cases lerr with
          | some err =>
            exact ⟨[Event.SessionClose sid], by simp [Courier.RunWithEnv, hc, hN, hl], hev,
              Or.inl rfl⟩
          | none =>
            refine ⟨[Event.Run sid cmd (t.Run (hist ++ [Event.NewSession (Except.ok sid),
              ptyRequest sid none] ++ ev2) sid cmd), Event.SessionClose sid], ?_, hev,
              Or.inr ⟨_, rfl⟩⟩
            simp only [Courier.RunWithEnv, hc, hN, hl]
            split
            · simp
            · split <;> simp

/-- `Setenv` events close no session. -/
theorem closedSessions_setenv (sid : Nat) (ses : List Event)
    (h : ∀ e ∈ ses, ∃ k v r, e = Event.Setenv sid k v r) : closedSessions ses = [] := by
  induction ses with
  | nil => rfl
  | cons x rest ih =>
    obtain ⟨k, v, r, rfl⟩ := h x (List.mem_cons_self _ _)
    have := ih (fun e he => h e (List.mem_cons_of_mem _ he))
    simpa [closedSessions] using this

/-- `Setenv` events obtain no session. -/
theorem obtainedSessions_setenv (sid : Nat) (ses : List Event)
    (h : ∀ e ∈ ses, ∃ k v r, e = Event.Setenv sid k v r) : obtainedSessions ses = [] := by
  induction ses with
  | nil => rfl
  | cons x rest ih =>
    obtain ⟨k, v, r, rfl⟩ := h x (List.mem_cons_self _ _)
    have := ih (fun e he => h e (List.mem_cons_of_mem _ he))
    simpa [obtainedSessions] using this

/-- Splitting the close count over an append. -/
theorem closedSessions_append (a b : List Event) :
    closedSessions (a ++ b) = closedSessions a ++ closedSessions b := by
  simp [closedSessions]

/-- Splitting the obtained sessions over an append. -/
theorem obtainedSessions_append (a b : List Event) :
    obtainedSessions (a ++ b) = obtainedSessions a ++ obtainedSessions b := by
  simp [obtainedSessions]

/-- Release discipline of every `RunWithEnv` call. -/
theorem RunWithEnv_released (c : Courier) (t : Transport) (cmd : String)
    (env : List String) (hist : List Event) :
    ReleasedOnce (c.RunWithEnv t cmd env hist).2 := by
  rcases RunWithEnv_events_shape c t cmd env hist with
    h | ⟨cause, h⟩ | ⟨sid, cause, h⟩ | ⟨sid, ses, tail, h, hses, htail⟩
  · rw [h]; simp [ReleasedOnce, closedSessions, obtainedSessions]
  · rw [h]; simp [ReleasedOnce, closedSessions, obtainedSessions]
  · rw [h]; simp [ReleasedOnce, closedSessions, obtainedSessions, ptyRequest]
  · rw [h]
    have e1 : Event.NewSession (Except.ok sid) :: ptyRequest sid none :: (ses ++ tail) =
        [Event.NewSession (Except.ok sid), ptyRequest sid none] ++ ses ++ tail := by simp
    have hc := closedSessions_setenv sid ses hses
    have ho := obtainedSessions_setenv sid ses hses
    have hc0 : closedSessions [Event.NewSession (Except.ok sid), ptyRequest sid none] = [] := by
      simp [closedSessions, ptyRequest]
    have ho0 : obtainedSessions [Event.NewSession (Except.ok sid), ptyRequest sid none] =
        [sid] := by
      simp [obtainedSessions, ptyRequest]
    rw [e1]
    unfold ReleasedOnce
    rw [closedSessions_append, closedSessions_append, obtainedSessions_append,
      obtainedSessions_append, hc, ho, hc0, ho0]
    rcases htail with rfl | ⟨rr, rfl⟩
    · refine ⟨by simp [closedSessions, obtainedSessions], by simp [obtainedSessions], ?_⟩
      intro s hs
      have hs1 : s = sid := by simpa [obtainedSessions] using hs
      rw [hs1, List.getLast?_append]
      simp
    · refine ⟨by simp [closedSessions, obtainedSessions], by simp [obtainedSessions], ?_⟩
      intro s hs
      have hs1 : s = sid := by simpa [obtainedSessions] using hs
      rw [hs1, List.getLast?_append]
      simp

/-- C6: for every handle, command, environment and behaviour of the
transport, a `Run` or `RunWithEnv` call closes every session it obtained from
the transport exactly once, as its last operation, and closes nothing when it
obtained none; it obtains at most one. -/
theorem sessions_closed_once (c : Courier) (t : Transport) (cmd : String)
    (env : List String) (hist : List Event) :
    ReleasedOnce (c.Run t cmd hist).2 ∧ ReleasedOnce (c.RunWithEnv t cmd env hist).2 := by
  constructor
  · rw [Run_eq_RunWithEnv_nil]
    exact RunWithEnv_released c t cmd [] hist
  · exact RunWithEnv_released c t cmd env hist

/-- A session event, a pty event, `Setenv` events and a tail of later steps
are sorted by protocol step. -/
theorem sorted_of_steps (a b : Event) (ses tail : List Event) (ha : a.phase = 0)
    (hb : b.phase = 1) (hses : ∀ e ∈ ses, e.phase = 2)
    (htail : tail.Pairwise (fun x y => x.phase ≤ y.phase))
    (ht3 : ∀ e ∈ tail, 3 ≤ e.phase) :
    (a :: b :: (ses ++ tail)).Pairwise (fun x y => x.phase ≤ y.phase) := by
  have hpw : ses.Pairwise (fun x y => x.phase ≤ y.phase) := by
    apply List.pairwise_of_forall_mem_list
    intro x hx y hy
    rw [hses x hx, hses y hy]
  rw [List.pairwise_cons, List.pairwise_cons, List.pairwise_append]
  refine ⟨fun x _ => by rw [ha]; exact Nat.zero_le _, fun x hx => ?_, hpw, htail,
    fun x hx y hy => ?_⟩
  · rw [hb]
    rcases List.mem_append.1 hx with h | h
    · rw [hses x h]; decide
    · exact le_trans (by decide) (ht3 x h)
  · rw [hses x hx]
    exact le_trans (by decide) (ht3 y hy)

/-- The events of one `RunWithEnv` call are sorted by protocol step. -/
theorem RunWithEnv_sorted (c : Courier) (t : Transport) (cmd : String)
    (env : List String) (hist : List Event) :
    (c.RunWithEnv t cmd env hist).2.Pairwise (fun a b => a.phase ≤ b.phase) := by
  rcases RunWithEnv_events_shape c t cmd env hist with
    h | ⟨cause, h⟩ | ⟨sid, cause, h⟩ | ⟨sid, ses, tail, h, hses, htail⟩
  · rw [h]; simp
  · rw [h]; simp
  · rw [h]; simp [ptyRequest, Event.phase]
  · rw [h]
    have hph : ∀ e ∈ ses, e.phase = 2 := by
      intro e he
      obtain ⟨k, v, r, rfl⟩ := hses e he
      rfl
    apply sorted_of_steps (Event.NewSession (Except.ok sid)) (ptyRequest sid none) ses tail
      rfl rfl hph
    · rcases htail with rfl | ⟨rr, rfl⟩
      · simp
      · simp [Event.phase]
    · rcases htail with rfl | ⟨rr, rfl⟩
      · simp [Event.phase]
      · simp [Event.phase]

/-- Order of the operations of every `RunWithEnv` call. -/
theorem RunWithEnv_order (c : Courier) (t : Transport) (cmd : String)
    (env : List String) (hist : List Event) :
    ProtocolOrder ptyRequest (c.RunWithEnv t cmd env hist).2 := by
  have hsorted := RunWithEnv_sorted c t cmd env hist
  have hshape := RunWithEnv_events_shape c t cmd env hist
  generalize (c.RunWithEnv t cmd env hist).2 = evs at hsorted hshape
  refine ⟨?_, ?_, ?_, ?_⟩
  · intro pre e post hev he
    rcases hshape with h | ⟨cause, h⟩ | ⟨sid, cause, h⟩ | ⟨sid, ses, tail, h, _, _⟩
    · rw [h] at hev; simp at hev
    · rw [h] at hev
      have hmem : e ∈ [Event.NewSession (Except.error cause)] := by rw [hev]; simp
      simp only [List.mem_singleton] at hmem
      subst hmem
      simp [Event.phase] at he
    · rw [h] at hev
      have hmem : e ∈ [Event.NewSession (Except.ok sid), ptyRequest sid (some cause),
          Event.SessionClose sid] := by rw [hev]; simp
      simp only [List.mem_cons, List.mem_singleton, List.not_mem_nil, or_false] at hmem
      rcases hmem with rfl | rfl | rfl <;> simp [Event.phase, ptyRequest] at he
    · rw [h] at hev
      match pre, hev with
      | [], hev =>
        simp only [List.nil_append, List.cons.injEq] at hev
        rw [← hev.1] at he
        simp [Event.phase] at he
      | [x], hev =>
        simp only [List.singleton_append, List.cons.injEq] at hev
        rw [← hev.2.1] at he
        simp [Event.phase, ptyRequest] at he
      | x :: y :: pre2, hev =>
        simp only [List.cons_append, List.cons.injEq] at hev
        exact ⟨sid, by rw [← hev.2.1]; simp⟩
  · intro pre e post hev he x hx
    rw [hev, List.pairwise_append, List.pairwise_cons] at hsorted
    have := hsorted.2.1.1 x hx
    rw [he] at this
    intro h2
    rw [h2] at this
    exact absurd this (by decide)
  · intro e he h1
    rcases hshape with h | ⟨cause, h⟩ | ⟨sid, cause, h⟩ | ⟨sid, ses, tail, h, hses, htail⟩
    · rw [h] at he; simp at he
    · rw [h] at he
      simp only [List.mem_singleton] at he
      subst he
      simp [Event.phase] at h1
    · rw [h] at he
      simp only [List.mem_cons, List.mem_singleton, List.not_mem_nil, or_false] at he
      rcases he with rfl | rfl | rfl
      · simp [Event.phase] at h1
      · exact ⟨sid, some cause, rfl⟩
      · simp [Event.phase] at h1
    · rw [h] at he
      simp only [List.mem_cons, List.mem_append] at he
      rcases he with rfl | rfl | he | he
      · simp [Event.phase] at h1
      · exact ⟨sid, none, rfl⟩
      · obtain ⟨k, v, r, rfl⟩ := hses e he
        simp [Event.phase] at h1
      · rcases htail with rfl | ⟨rr, rfl⟩
        · simp only [List.mem_singleton] at he
          subst he
          simp [Event.phase] at h1
        · simp only [List.mem_cons, List.mem_singleton, List.not_mem_nil, or_false] at he
          rcases he with rfl | rfl <;> simp [Event.phase] at h1
  · intro sid0 term h0 w0 modes cause hmem x hx
    rcases hshape with h | ⟨cause1, h⟩ | ⟨sid, cause1, h⟩ | ⟨sid, ses, tail, h, hses, htail⟩
    · rw [h] at hx; simp at hx
    · rw [h] at hx
      simp only [List.mem_singleton] at hx
      subst hx
      simp [Event.phase]
    · rw [h] at hx
      simp only [List.mem_cons, List.mem_singleton, List.not_mem_nil, or_false] at hx
      rcases hx with rfl | rfl | rfl <;> simp [Event.phase, ptyRequest]
    · exfalso
      rw [h] at hmem
      simp only [List.mem_cons, List.mem_append] at hmem
      rcases hmem with hm | hm | hm | hm
      · simp at hm
      · simp [ptyRequest] at hm
      · obtain ⟨k, v, r, hk⟩ := hses _ hm
        simp at hk
      · rcases htail with rfl | ⟨rr, rfl⟩
        · simp at hm
        · simp at hm

/-- C7, as amended: in every `Run` and `RunWithEnv` call the pty request
`RequestPty("xterm", 80, 40, modes)`, height 80 rows and width 40 columns,
echo off and both speeds 14400, is granted before every `Setenv` request and
before the command execution; no `Setenv` follows the command execution; and
after a refused pty request neither a `Setenv` nor a command execution is
issued. -/
theorem protocol_order (c : Courier) (t : Transport) (cmd : String) (env : List String)
    (hist : List Event) :
    ProtocolOrder ptyRequest (c.Run t cmd hist).2 ∧
    ProtocolOrder ptyRequest (c.RunWithEnv t cmd env hist).2 := by
  constructor
  · rw [Run_eq_RunWithEnv_nil]
    exact RunWithEnv_order c t cmd [] hist
  · exact RunWithEnv_order c t cmd env hist

/-- C7, counterexample: a call that sets `FOO=bar` and runs a command issues a
`Setenv` request, yet the 80-column, 40-row pty request of the specification
occurs nowhere among its operations, so it does not come before that `Setenv`:
the call issues `RequestPty("xterm", 80, 40, modes)`, whose height is 80 and
whose width is 40. -/
theorem protocol_order_spec_pty_fails :
    Event.Setenv 1 "FOO" "bar" none ∈
      (liveCourier.RunWithEnv (Transport.always 1 ⟨none, "bar\n", ""⟩) "echo $FOO"
        ["FOO=bar"] []).2 ∧
    (∀ sid err, specPtyRequest sid err ∉
      (liveCourier.RunWithEnv (Transport.always 1 ⟨none, "bar\n", ""⟩) "echo $FOO"
        ["FOO=bar"] []).2) ∧
    ¬ ProtocolOrder specPtyRequest
      (liveCourier.RunWithEnv (Transport.always 1 ⟨none, "bar\n", ""⟩) "echo $FOO"
        ["FOO=bar"] []).2 := by
  have hevs : (liveCourier.RunWithEnv (Transport.always 1 ⟨none, "bar\n", ""⟩) "echo $FOO"
      ["FOO=bar"] []).2 =
      [Event.NewSession (Except.ok 1), ptyRequest 1 none, Event.Setenv 1 "FOO" "bar" none,
        Event.Run 1 "echo $FOO" ⟨none, "bar\n", ""⟩, Event.SessionClose 1] := by
    decide
  rw [hevs]
  have hno : ∀ sid err, specPtyRequest sid err ∉
      [Event.NewSession (Except.ok 1), ptyRequest 1 none, Event.Setenv 1 "FOO" "bar" none,
        Event.Run 1 "echo $FOO" ⟨none, "bar\n", ""⟩, Event.SessionClose 1] := by
    intro sid err
    simp [specPtyRequest, ptyRequest]
  refine ⟨by simp, hno, ?_⟩
  intro h
  obtain ⟨sid, hmem⟩ := h.1 [Event.NewSession (Except.ok 1), ptyRequest 1 none]
    (Event.Setenv 1 "FOO" "bar" none)
    [Event.Run 1 "echo $FOO" ⟨none, "bar\n", ""⟩, Event.SessionClose 1] rfl (Or.inl rfl)
  exact hno sid none (by
    simp only [List.mem_cons] at hmem ⊢
    rcases hmem with h1 | h1 | h1
    · exact Or.inl h1
    · exact Or.inr (Or.inl h1)
    · simp at h1)

/-- A text without the separator is one piece. -/
theorem strings.splitChars_of_not_mem (sep : Char) (l : List Char) (h : sep ∉ l) :
    strings.splitChars sep l = [l] := by
  induction l with
  | nil => rfl
  | cons c cs ih =>
    have hc : c ≠ sep := fun hcs => h (by rw [hcs]; exact List.mem_cons_self _ _)
    have hcs : sep ∉ cs := fun hm => h (List.mem_cons_of_mem _ hm)
    simp [strings.splitChars, hc, ih hcs]

/-- There is one piece more than there are separators. -/
theorem strings.splitChars_length (sep : Char) (l : List Char) :
    (strings.splitChars sep l).length = l.count sep + 1 := by
  induction l with
  | nil => rfl
  | cons c cs ih =>
    by_cases hc : c = sep
    · subst hc
      simp [strings.splitChars, ih]
    · have hne : (c == sep) = false := by simpa using hc
      cases hsp : strings.splitChars sep cs with
      | nil => rw [hsp] at ih; simp at ih
      | cons p ps =>
        rw [hsp] at ih
        simp only [strings.splitChars, hc, if_false, hsp, List.length_cons] at ih ⊢
        rw [List.count_cons, hne]
        simpa using ih

/-- A text with exactly one separator is cut into what precedes it and what
follows it. -/
theorem strings.splitChars_two (sep : Char) (l : List Char) (h : l.count sep = 1) :
    strings.splitChars sep l =
      [l.takeWhile (fun c => c ≠ sep), (l.dropWhile (fun c => c ≠ sep)).drop 1] := by
  induction l with
  | nil => simp at h
  | cons c cs ih =>
    by_cases hc : c = sep
    · subst hc
      have h0 : cs.count c = 0 := by simpa using h
      have hnm : c ∉ cs := List.count_eq_zero.1 h0
      simp [strings.splitChars, strings.splitChars_of_not_mem c cs hnm]
    · have hne : (c == sep) = false := by simpa using hc
      have h1 : cs.count sep = 1 := by
        rw [List.count_cons, hne] at h
        simpa using h
      simp [strings.splitChars, hc, ih h1]

/-- The entries that send a binding are those with exactly one `=`, and the
binding is the text before and the text after it. -/
theorem binding_eq (e : String) :
    binding e = if exactlyOneEq e then some (cut e) else none := by
  by_cases h : e.data.count '=' = 1
  · have hs : strings.Split e '=' = [(cut e).1, (cut e).2] := by
      simp [strings.Split, strings.splitChars_two '=' e.data h, cut]
    simp [exactlyOneEq, h, (binding_eq_some e (cut e).1 (cut e).2).2 hs]
  · simp only [exactlyOneEq, h, decide_False, Bool.false_eq_true, if_false]
    cases hb : binding e with
    | none => rfl
    | some kv =>
      exfalso
      have hs := (binding_eq_some e kv.1 kv.2).1 hb
      have hl : (strings.Split e '=').length = 2 := by rw [hs]; rfl
      simp only [strings.Split, List.length_map, strings.splitChars_length] at hl
      exact h (by omega)

/-- The bindings sent for `env` are the cuts of its entries with exactly one
`=`, in order. -/
theorem bindings_eq (env : List String) :
    bindings env = (env.filter exactlyOneEq).map cut := by
  induction env with
  | nil => rfl
  | cons x rest ih =>
    unfold bindings at ih ⊢
    by_cases h : exactlyOneEq x = true
    · simp [List.filterMap_cons, binding_eq, h, ih]
    · simp [List.filterMap_cons, binding_eq, h, ih]

/-- Entries without exactly one `=` have no effect on the env loop. -/
theorem envLoop_filter (t : Transport) (sid : Nat) (env : List String) :
    ∀ hist, envLoop t sid (env.filter exactlyOneEq) hist = envLoop t sid env hist := by
  induction env with
  | nil => intro hist; rfl
  | cons x rest ih =>
    intro hist
    by_cases h : exactlyOneEq x = true
    · have hb : binding x = some ((cut x).1, (cut x).2) := by simp [binding_eq, h]
      rw [List.filter_cons_of_pos h]
      cases hs : t.Setenv hist sid (cut x).1 (cut x).2 with
      | none =>
        rw [envLoop_accept t sid x _ _ _ hist hb hs, envLoop_accept t sid x _ _ _ hist hb hs, ih]
      | some cause =>
        rw [envLoop_reject t sid x _ _ cause _ hist hb hs,
          envLoop_reject t sid x _ _ cause _ hist hb hs]
    · have hb : binding x = none := by simp [binding_eq, h]
      rw [List.filter_cons_of_neg h, envLoop_skip t sid x rest hist hb, ih]

/-- While the remote accepts, the env loop over a prefix sends the bindings of
the prefix and goes on with the rest. -/
theorem envLoop_prefix (t : Transport) (sid : Nat) (pre rest : List String) :
    ∀ hist,
      (∀ j k v, (bindings pre)[j]? = some (k, v) →
        t.Setenv (hist ++ acceptedEvents sid ((bindings pre).take j)) sid k v = none) →
      envLoop t sid (pre ++ rest) hist =
        ((envLoop t sid rest (hist ++ acceptedEvents sid (bindings pre))).1,
          acceptedEvents sid (bindings pre) ++
            (envLoop t sid rest (hist ++ acceptedEvents sid (bindings pre))).2) := by
  induction pre with
  | nil => intro hist _; simp [bindings, acceptedEvents]
  | cons x xs ih =>
    intro hist hacc
    cases hb : binding x with
    | none =>
      have hbs : bindings (x :: xs) = bindings xs := by
        simp [bindings, List.filterMap_cons, hb]
      rw [hbs] at hacc ⊢
      rw [List.cons_append, envLoop_skip t sid x _ hist hb]
      exact ih hist hacc
    | some kv =>
      obtain ⟨k0, v0⟩ := kv
      have hbs : bindings (x :: xs) = (k0, v0) :: bindings xs := by
        simp [bindings, List.filterMap_cons, hb]
      rw [hbs] at hacc ⊢
      have h0 : t.Setenv hist sid k0 v0 = none := by
        have := hacc 0 k0 v0 (by simp)
        simpa [acceptedEvents] using this
      have hrest : ∀ j k v, (bindings xs)[j]? = some (k, v) →
          t.Setenv (hist ++ [Event.Setenv sid k0 v0 none] ++
            acceptedEvents sid ((bindings xs).take j)) sid k v = none := by
        intro j k v hj
        have := hacc (j + 1) k v (by simpa using hj)
        simpa [acceptedEvents] using this
      rw [List.cons_append, envLoop_accept t sid x k0 v0 _ hist hb h0,
        ih (hist ++ [Event.Setenv sid k0 v0 none]) hrest]
      simp [acceptedEvents]

/-- The requests of accepted `Setenv` events are their bindings. -/
theorem setenvRequests_accepted (sid : Nat) (bs : List (String × String)) :
    setenvRequests (acceptedEvents sid bs) = bs := by
  induction bs with
  | nil => rfl
  | cons b rest ih =>
    unfold setenvRequests acceptedEvents at ih ⊢
    simp [ih]

/-- Accepted `Setenv` events execute no command. -/
theorem executedCommands_accepted (sid : Nat) (bs : List (String × String)) :
    executedCommands (acceptedEvents sid bs) = [] := by
  induction bs with
  | nil => rfl
  | cons b rest ih =>
    unfold executedCommands acceptedEvents at ih ⊢
    simp [ih]

/-- Entries without exactly one `=` have no effect on `RunWithEnv`, whatever
the transport does. -/
theorem RunWithEnv_filter (c : Courier) (t : Transport) (cmd : String) (env : List String)
    (hist : List Event) :
    c.RunWithEnv t cmd (env.filter exactlyOneEq) hist = c.RunWithEnv t cmd env hist := by
  simp only [Courier.RunWithEnv, envLoop_filter]

/-- The events of a `RunWithEnv` call whose session and pty are granted and
whose `Setenv` requests are all accepted. -/
theorem RunWithEnv_accepted (c : Courier) (t : Transport) (cmd : String) (env : List String)
    (hist : List Event) (conn : Client) (sid : Nat)
    (hc : c.SSHConnection = some conn)
    (hs : t.NewSession hist = Except.ok sid)
    (hp : t.RequestPty (hist ++ [Event.NewSession (Except.ok sid)]) sid "xterm" 80 40
      sshModes = none)
    (ha : ∀ h name value, t.Setenv h sid name value = none) :
    (c.RunWithEnv t cmd env hist).2 =
      Event.NewSession (Except.ok sid) :: ptyRequest sid none ::
        (acceptedEvents sid (bindings env) ++
          [Event.Run sid cmd (t.Run (hist ++ [Event.NewSession (Except.ok sid),
            ptyRequest sid none] ++ acceptedEvents sid (bindings env)) sid cmd),
           Event.SessionClose sid]) := by
  have hN := NewSession_ok c t hist conn sid hc hs hp
  have hl := envLoop_prefix t sid env []
    (hist ++ [Event.NewSession (Except.ok sid), ptyRequest sid none])
    (fun j k v _ => ha _ k v)
  rw [List.append_nil] at hl
  simp only [envLoop, List.append_nil] at hl
  simp only [Courier.RunWithEnv, hc, hN, hl]
  split
  · simp
  · split <;> simp

/-- C1, as amended: on a live handle whose session and pty are granted and
whose remote accepts every `Setenv`, `RunWithEnv` requests a binding for
exactly the entries of `env` that contain exactly one `=`, in order, with the
text before the `=` as name and the text after it as value (either may be
empty); every other entry causes no `Setenv` request and does not abort the
run: the command is executed, and dropping those entries changes neither the
result nor the operations issued. -/
theorem RunWithEnv_setenv_requests (c : Courier) (t : Transport) (cmd : String)
    (env : List String) (hist : List Event) (conn : Client) (sid : Nat)
    (hc : c.SSHConnection = some conn)
    (hs : t.NewSession hist = Except.ok sid)
    (hp : t.RequestPty (hist ++ [Event.NewSession (Except.ok sid)]) sid "xterm" 80 40
      sshModes = none)
    (ha : ∀ h name value, t.Setenv h sid name value = none) :
    setenvRequests (c.RunWithEnv t cmd env hist).2 = (env.filter exactlyOneEq).map cut ∧
    executedCommands (c.RunWithEnv t cmd env hist).2 = [cmd] ∧
    c.RunWithEnv t cmd env hist = c.RunWithEnv t cmd (env.filter exactlyOneEq) hist := by
  have hev := RunWithEnv_accepted c t cmd env hist conn sid hc hs hp ha
  have e1 : ∀ tail : List Event,
      Event.NewSession (Except.ok sid) :: ptyRequest sid none ::
        (acceptedEvents sid (bindings env) ++ tail) =
      [Event.NewSession (Except.ok sid), ptyRequest sid none] ++
        (acceptedEvents sid (bindings env) ++ tail) := fun _ => rfl
  refine ⟨?_, ?_, (RunWithEnv_filter c t cmd env hist).symm⟩
  · rw [hev, e1, ← bindings_eq]
    have h1 := setenvRequests_accepted sid (bindings env)
    unfold setenvRequests at h1 ⊢
    rw [List.filterMap_append, List.filterMap_append, h1]
    simp [ptyRequest]
  · rw [hev, e1]
    have h1 := executedCommands_accepted sid (bindings env)
    unfold executedCommands at h1 ⊢
    rw [List.filterMap_append, List.filterMap_append, h1]
    simp [ptyRequest]

/-- C1, witness: of the five entries only `FOO=bar`, `=VALUE` and `KEY=` are
sent. -/
theorem RunWithEnv_setenv_requests_witness :
    setenvRequests (liveCourier.RunWithEnv (Transport.always 1 ⟨none, "", ""⟩) "env"
        ["FOO=bar", "NOEQUALS", "=VALUE", "KEY=", "A=B=C"] []).2 =
      (["FOO=bar", "NOEQUALS", "=VALUE", "KEY=", "A=B=C"].filter exactlyOneEq).map cut ∧
    executedCommands (liveCourier.RunWithEnv (Transport.always 1 ⟨none, "", ""⟩) "env"
        ["FOO=bar", "NOEQUALS", "=VALUE", "KEY=", "A=B=C"] []).2 = ["env"] ∧
    liveCourier.RunWithEnv (Transport.always 1 ⟨none, "", ""⟩) "env"
        ["FOO=bar", "NOEQUALS", "=VALUE", "KEY=", "A=B=C"] [] =
      liveCourier.RunWithEnv (Transport.always 1 ⟨none, "", ""⟩) "env"
        (["FOO=bar", "NOEQUALS", "=VALUE", "KEY=", "A=B=C"].filter exactlyOneEq) [] :=
  RunWithEnv_setenv_requests liveCourier (Transport.always 1 ⟨none, "", ""⟩) "env"
    ["FOO=bar", "NOEQUALS", "=VALUE", "KEY=", "A=B=C"] [] ⟨"example.org:22"⟩ 1 rfl rfl rfl
    (fun _ _ _ => rfl)

/-- C1, counterexample: with the four entries the specification calls
malformed, `RunWithEnv` still requests `Setenv("", "VALUE")` and
`Setenv("KEY", "")`, while the specification has it send nothing. -/
theorem RunWithEnv_sends_empty_segments :
    setenvRequests (liveCourier.RunWithEnv (Transport.always 1 ⟨none, "", ""⟩) "env"
        ["NOEQUALS", "=VALUE", "KEY=", "A=B=C"] []).2 = [("", "VALUE"), ("KEY", "")] ∧
    specBindings ["NOEQUALS", "=VALUE", "KEY=", "A=B=C"] = [] := by
  constructor <;> decide

/-- C8: let `e`, the entry of `env` after the prefix `pre`, be cut by
`strings.Split` into `name` and `value`; let the remote accept the `Setenv`
request of every entry of `pre` and reject the one for `e` with `cause`.  Then
`RunWithEnv` returns the empty output and the env-set error wrapping `cause`;
it issues the requests of `pre`, the rejected request and the close of the
session, hence no `Setenv` for any later entry and no command execution. -/
theorem RunWithEnv_setenv_rejected (c : Courier) (t : Transport) (cmd : String)
    (pre : List String) (e : String) (post : List String) (hist : List Event)
    (conn : Client) (sid : Nat) (name value cause : String)
    (hc : c.SSHConnection = some conn)
    (hs : t.NewSession hist = Except.ok sid)
    (hp : t.RequestPty (hist ++ [Event.NewSession (Except.ok sid)]) sid "xterm" 80 40
      sshModes = none)
    (hb : strings.Split e '=' = [name, value])
    (hacc : ∀ j k v, (bindings pre)[j]? = some (k, v) →
      t.Setenv (hist ++ [Event.NewSession (Except.ok sid), ptyRequest sid none] ++
        acceptedEvents sid ((bindings pre).take j)) sid k v = none)
    (hrej : t.Setenv (hist ++ [Event.NewSession (Except.ok sid), ptyRequest sid none] ++
      acceptedEvents sid (bindings pre)) sid name value = some cause) :
    c.RunWithEnv t cmd (pre ++ e :: post) hist =
      (Res.ret ("", some ("Error setting env for cmd: " ++ cause)),
        Event.NewSession (Except.ok sid) :: ptyRequest sid none ::
          (acceptedEvents sid (bindings pre) ++
            [Event.Setenv sid name value (some cause), Event.SessionClose sid])) := by
  have hN := NewSession_ok c t hist conn sid hc hs hp
  have hbind : binding e = some (name, value) := (binding_eq_some e name value).2 hb
  have hl := envLoop_prefix t sid pre (e :: post)
    (hist ++ [Event.NewSession (Except.ok sid), ptyRequest sid none]) hacc
  rw [envLoop_reject t sid e name value cause post _ hbind hrej] at hl
  simp [Courier.RunWithEnv, hc, hN, hl]

/-- C8, witness: the remote refuses `LANG`; the entry `LANG=C` comes after a
malformed entry and an accepted one and before `FOO=bar`. -/
theorem RunWithEnv_setenv_rejected_witness :
    liveCourier.RunWithEnv (Transport.refusing 1 ⟨none, "", ""⟩ "LANG" "setenv refused")
        "env" (["bad", "TERM=vt100"] ++ "LANG=C" :: ["FOO=bar"]) [] =
      (Res.ret ("", some ("Error setting env for cmd: " ++ "setenv refused")),
        Event.NewSession (Except.ok 1) :: ptyRequest 1 none ::
          (acceptedEvents 1 (bindings ["bad", "TERM=vt100"]) ++
            [Event.Setenv 1 "LANG" "C" (some "setenv refused"), Event.SessionClose 1])) :=
  RunWithEnv_setenv_rejected liveCourier
    (Transport.refusing 1 ⟨none, "", ""⟩ "LANG" "setenv refused") "env"
    ["bad", "TERM=vt100"] "LANG=C" ["FOO=bar"] [] ⟨"example.org:22"⟩ 1 "LANG" "C"
    "setenv refused" rfl rfl rfl (by decide)
    (by
      intro j k v h
      have hbs : bindings ["bad", "TERM=vt100"] = [("TERM", "vt100")] := by decide
      rw [hbs] at h
      cases j with
      | zero =>
        simp only [List.getElem?_cons_zero, Option.some.injEq, Prod.mk.injEq] at h
        obtain ⟨rfl, rfl⟩ := h
        decide
      | succ n => simp at h)
    (by decide)

/-- On a live handle every `RunWithEnv` call starts by asking the transport
for a session. -/
theorem RunWithEnv_first_event (c : Courier) (t : Transport) (cmd : String)
    (env : List String) (hist : List Event) (conn : Client)
    (hc : c.SSHConnection = some conn) :
    (c.RunWithEnv t cmd env hist).2.head? = some (Event.NewSession (t.NewSession hist)) := by
  cases hs : t.NewSession hist with
  | error cause =>
    simp [Courier.RunWithEnv, hc, NewSession_refused c t hist conn cause hc hs]
  | ok sid =>
    cases hp : t.RequestPty (hist ++ [Event.NewSession (Except.ok sid)]) sid "xterm" 80 40
        sshModes with
    | some cause =>
      simp [Courier.RunWithEnv, hc, NewSession_pty_refused c t hist conn sid cause hc hs hp]
    | none =>
      have hN := NewSession_ok c t hist conn sid hc hs hp
      simp only [Courier.RunWithEnv, hc, hN]
      split
      · simp
      · split
        · simp
        · split <;> simp

/-- The session-creation prefix, wrapped by the caller a second time. -/
theorem wrap_session (cause : String) :
    "Error creating new SSH session: " ++ ("Error creating new SSH session: " ++ cause) =
      "Error creating new SSH session: Error creating new SSH session: " ++ cause := by
  rw [← String.append_assoc]
  rfl

/-- The pty error, wrapped by the caller in the session-creation prefix. -/
theorem wrap_pty (cause : String) :
    "Error creating new SSH session: " ++
        ("Error request for pseudo terminal failed: " ++ cause) =
      "Error creating new SSH session: Error request for pseudo terminal failed: " ++
        cause := by
  rw [← String.append_assoc]
  rfl

/-- `Run` on a live handle, outcome by outcome of the transport. -/
theorem Run_live (c : Courier) (t : Transport) (cmd : String) (h : List Event)
    (conn : Client) (hc : c.SSHConnection = some conn) :
    (∀ cause, t.NewSession h = Except.error cause →
      c.Run t cmd h =
        (Res.ret ("", some
          ("Error creating new SSH session: Error creating new SSH session: " ++ cause)),
          [Event.NewSession (Except.error cause)])) ∧
    (∀ sid cause, t.NewSession h = Except.ok sid →
      t.RequestPty (h ++ [Event.NewSession (Except.ok sid)]) sid "xterm" 80 40 sshModes =
        some cause →
      c.Run t cmd h =
        (Res.ret ("", some
          ("Error creating new SSH session: Error request for pseudo terminal failed: " ++
            cause)),
          [Event.NewSession (Except.ok sid), ptyRequest sid (some cause),
            Event.SessionClose sid])) ∧
    (∀ sid, t.NewSession h = Except.ok sid →
      t.RequestPty (h ++ [Event.NewSession (Except.ok sid)]) sid "xterm" 80 40 sshModes =
        none →
      c.Run t cmd h =
        (Res.ret (classify cmd
            (t.Run (h ++ [Event.NewSession (Except.ok sid), ptyRequest sid none]) sid cmd)),
          [Event.NewSession (Except.ok sid), ptyRequest sid none,
            Event.Run sid cmd
              (t.Run (h ++ [Event.NewSession (Except.ok sid), ptyRequest sid none]) sid cmd),
            Event.SessionClose sid])) := by
  refine ⟨?_, ?_, ?_⟩
  · intro cause hs
    simp [Courier.Run, hc, NewSession_refused c t h conn cause hc hs, wrap_session]
  · intro sid cause hs hp
    simp [Courier.Run, hc, NewSession_pty_refused c t h conn sid cause hc hs hp, wrap_pty]
  · intro sid hs hp
    have hN := NewSession_ok c t h conn sid hc hs hp
    simp only [Courier.Run, hc, hN, classify]
    split
    · simp
    · split <;> simp

/-- `RunWithEnv` on a live handle, outcome by outcome of the transport. -/
theorem RunWithEnv_live (c : Courier) (t : Transport) (cmd : String) (env : List String)
    (h : List Event) (conn : Client) (hc : c.SSHConnection = some conn) :
    (∀ cause, t.NewSession h = Except.error cause →
      c.RunWithEnv t cmd env h =
        (Res.ret ("", some
          ("Error creating new SSH session: Error creating new SSH session: " ++ cause)),
          [Event.NewSession (Except.error cause)])) ∧
    (∀ sid cause, t.NewSession h = Except.ok sid →
      t.RequestPty (h ++ [Event.NewSession (Except.ok sid)]) sid "xterm" 80 40 sshModes =
        some cause →
      c.RunWithEnv t cmd env h =
        (Res.ret ("", some
          ("Error creating new SSH session: Error request for pseudo terminal failed: " ++
            cause)),
          [Event.NewSession (Except.ok sid), ptyRequest sid (some cause),
            Event.SessionClose sid])) ∧
    (∀ sid err ev2, t.NewSession h = Except.ok sid →
      t.RequestPty (h ++ [Event.NewSession (Except.ok sid)]) sid "xterm" 80 40 sshModes =
        none →
      envLoop t sid env (h ++ [Event.NewSession (Except.ok sid), ptyRequest sid none]) =
        (some err, ev2) →
      c.RunWithEnv t cmd env h =
        (Res.ret ("", some err),
          Event.NewSession (Except.ok sid) :: ptyRequest sid none ::
            (ev2 ++ [Event.SessionClose sid]))) ∧
    (∀ sid ev2, t.NewSession h = Except.ok sid →
      t.RequestPty (h ++ [Event.NewSession (Except.ok sid)]) sid "xterm" 80 40 sshModes =
        none →
      envLoop t sid env (h ++ [Event.NewSession (Except.ok sid), ptyRequest sid none]) =
        (none, ev2) →
      c.RunWithEnv t cmd env h =
        (Res.ret (classify cmd
            (t.Run (h ++ [Event.NewSession (Except.ok sid), ptyRequest sid none] ++ ev2)
              sid cmd)),
          Event.NewSession (Except.ok sid) :: ptyRequest sid none ::
            (ev2 ++ [Event.Run sid cmd
              (t.Run (h ++ [Event.NewSession (Except.ok sid), ptyRequest sid none] ++ ev2)
                sid cmd),
              Event.SessionClose sid]))) := by
  refine ⟨?_, ?_, ?_, ?_⟩
  · intro cause hs
    simp [Courier.RunWithEnv, hc, NewSession_refused c t h conn cause hc hs, wrap_session]
  · intro sid cause hs hp
    simp [Courier.RunWithEnv, hc, NewSession_pty_refused c t h conn sid cause hc hs hp, wrap_pty]
  · intro sid err ev2 hs hp hl
    have hN := NewSession_ok c t h conn sid hc hs hp
    simp [Courier.RunWithEnv, hc, hN, hl]
  · intro sid ev2 hs hp hl
    have hN := NewSession_ok c t h conn sid hc hs hp
    simp only [Courier.RunWithEnv, hc, hN, hl, classify]
    split
    · simp
    · split <;> simp

/-- C4, as amended: after `Close` has succeeded on a live handle the handle
still holds its connection, so at every later point, whatever `later` events
happened on the transport in between: a second `Close` asks the transport to
close the connection again and returns exactly the answer of the transport;
`Run` and `RunWithEnv` pass the connection check and ask the transport for a
new session; when it is refused with `cause` they return the empty output and
the session-creation error wrapping `cause`, having issued nothing else; when
it is granted and the pty request is refused they close the session and return
the empty output and the wrapped pty error; when both are granted `Run`
executes the command, closes the session and returns the classification of
the execution, and `RunWithEnv` does the same after its env loop, or returns
the env-set error of the loop after closing the session. -/
theorem Close_keeps_connection (c : Courier) (t : Transport) (cmd : String)
    (env : List String) (hist later : List Event) (conn : Client)
    (hc : c.SSHConnection = some conn)
    (h1 : (c.Close t hist).1 = none) :
    (c.Close t hist).2 = [Event.ClientClose none] ∧
    c.Close t (hist ++ Event.ClientClose none :: later) =
      (t.Close (hist ++ Event.ClientClose none :: later),
        [Event.ClientClose (t.Close (hist ++ Event.ClientClose none :: later))]) ∧
    (∀ cause, t.NewSession (hist ++ Event.ClientClose none :: later) = Except.error cause →
      c.Run t cmd (hist ++ Event.ClientClose none :: later) =
        (Res.ret ("", some
          ("Error creating new SSH session: Error creating new SSH session: " ++ cause)),
          [Event.NewSession (Except.error cause)]) ∧
      c.RunWithEnv t cmd env (hist ++ Event.ClientClose none :: later) =
        (Res.ret ("", some
          ("Error creating new SSH session: Error creating new SSH session: " ++ cause)),
          [Event.NewSession (Except.error cause)])) ∧
    (∀ sid cause, t.NewSession (hist ++ Event.ClientClose none :: later) = Except.ok sid →
      t.RequestPty (hist ++ Event.ClientClose none :: later ++
        [Event.NewSession (Except.ok sid)]) sid "xterm" 80 40 sshModes = some cause →
      c.Run t cmd (hist ++ Event.ClientClose none :: later) =
        (Res.ret ("", some
          ("Error creating new SSH session: Error request for pseudo terminal failed: " ++
            cause)),
          [Event.NewSession (Except.ok sid), ptyRequest sid (some cause),
            Event.SessionClose sid]) ∧
      c.RunWithEnv t cmd env (hist ++ Event.ClientClose none :: later) =
        (Res.ret ("", some
          ("Error creating new SSH session: Error request for pseudo terminal failed: " ++
            cause)),
          [Event.NewSession (Except.ok sid), ptyRequest sid (some cause),
            Event.SessionClose sid])) ∧
    (∀ sid, t.NewSession (hist ++ Event.ClientClose none :: later) = Except.ok sid →
      t.RequestPty (hist ++ Event.ClientClose none :: later ++
        [Event.NewSession (Except.ok sid)]) sid "xterm" 80 40 sshModes = none →
      c.Run t cmd (hist ++ Event.ClientClose none :: later) =
        (Res.ret (classify cmd
            (t.Run (hist ++ Event.ClientClose none :: later ++
              [Event.NewSession (Except.ok sid), ptyRequest sid none]) sid cmd)),
          [Event.NewSession (Except.ok sid), ptyRequest sid none,
            Event.Run sid cmd
              (t.Run (hist ++ Event.ClientClose none :: later ++
                [Event.NewSession (Except.ok sid), ptyRequest sid none]) sid cmd),
            Event.SessionClose sid]) ∧
      (∀ err ev2,
        envLoop t sid env (hist ++ Event.ClientClose none :: later ++
          [Event.NewSession (Except.ok sid), ptyRequest sid none]) = (some err, ev2) →
        c.RunWithEnv t cmd env (hist ++ Event.ClientClose none :: later) =
          (Res.ret ("", some err),
            Event.NewSession (Except.ok sid) :: ptyRequest sid none ::
              (ev2 ++ [Event.SessionClose sid]))) ∧
      (∀ ev2,
        envLoop t sid env (hist ++ Event.ClientClose none :: later ++
          [Event.NewSession (Except.ok sid), ptyRequest sid none]) = (none, ev2) →
        c.RunWithEnv t cmd env (hist ++ Event.ClientClose none :: later) =
          (Res.ret (classify cmd
              (t.Run (hist ++ Event.ClientClose none :: later ++
                [Event.NewSession (Except.ok sid), ptyRequest sid none] ++ ev2) sid cmd)),
            Event.NewSession (Except.ok sid) :: ptyRequest sid none ::
              (ev2 ++ [Event.Run sid cmd
                (t.Run (hist ++ Event.ClientClose none :: later ++
                  [Event.NewSession (Except.ok sid), ptyRequest sid none] ++ ev2) sid cmd),
                Event.SessionClose sid])))) := by
  have hcl : t.Close hist = none := by simpa [Courier.Close, hc] using h1
  have hR := Run_live c t cmd (hist ++ Event.ClientClose none :: later) conn hc
  have hE := RunWithEnv_live c t cmd env (hist ++ Event.ClientClose none :: later) conn hc
  refine ⟨by simp [Courier.Close, hc, hcl], by simp [Courier.Close, hc], ?_, ?_, ?_⟩
  · intro cause hs
    exact ⟨hR.1 cause hs, hE.1 cause hs⟩
  · intro sid cause hs hp
    exact ⟨hR.2.1 sid cause hs hp, hE.2.1 sid cause hs hp⟩
  · intro sid hs hp
    exact ⟨hR.2.2 sid hs hp, fun err ev2 hl => hE.2.2.1 sid err ev2 hs hp hl,
      fun ev2 hl => hE.2.2.2 sid ev2 hs hp hl⟩

/-- C4, witness: on a transport whose closed connection refuses everything,
after a successful `Close` and a first failed attempt, the second `Close`
returns the error of the transport and `Run` and `RunWithEnv` return the
session-creation error wrapping `EOF`. -/
theorem Close_keeps_connection_witness :
    liveCourier.Close (Transport.closable 1 ⟨none, "", ""⟩)
        ([] ++ Event.ClientClose none :: [Event.NewSession (Except.error "EOF")]) =
      (some "use of closed network connection",
        [Event.ClientClose (some "use of closed network connection")]) ∧
    liveCourier.Run (Transport.closable 1 ⟨none, "", ""⟩) "ls"
        ([] ++ Event.ClientClose none :: [Event.NewSession (Except.error "EOF")]) =
      (Res.ret ("", some
        ("Error creating new SSH session: Error creating new SSH session: " ++ "EOF")),
        [Event.NewSession (Except.error "EOF")]) ∧
    liveCourier.RunWithEnv (Transport.closable 1 ⟨none, "", ""⟩) "ls" ["A=B"]
        ([] ++ Event.ClientClose none :: [Event.NewSession (Except.error "EOF")]) =
      (Res.ret ("", some
        ("Error creating new SSH session: Error creating new SSH session: " ++ "EOF")),
        [Event.NewSession (Except.error "EOF")]) :=
  ⟨(Close_keeps_connection liveCourier (Transport.closable 1 ⟨none, "", ""⟩) "ls" ["A=B"] []
      [Event.NewSession (Except.error "EOF")] ⟨"example.org:22"⟩ rfl rfl).2.1,
    ((Close_keeps_connection liveCourier (Transport.closable 1 ⟨none, "", ""⟩) "ls" ["A=B"] []
      [Event.NewSession (Except.error "EOF")] ⟨"example.org:22"⟩ rfl rfl).2.2.1
        "EOF" rfl).1,
    ((Close_keeps_connection liveCourier (Transport.closable 1 ⟨none, "", ""⟩) "ls" ["A=B"] []
      [Event.NewSession (Except.error "EOF")] ⟨"example.org:22"⟩ rfl rfl).2.2.1
        "EOF" rfl).2⟩

/-- C4, counterexample: `Close` succeeds on a live handle; the second `Close`
is sent to the transport and returns its error, not the no-connection error;
a later `Run` and a later `RunWithEnv` ask the transport for a session and
return a session-creation error, not the no-connection error. -/
theorem Close_twice_reaches_transport :
    liveCourier.Close (Transport.closable 1 ⟨none, "", ""⟩) [] =
      (none, [Event.ClientClose none]) ∧
    liveCourier.Close (Transport.closable 1 ⟨none, "", ""⟩) [Event.ClientClose none] =
      (some "use of closed network connection",
        [Event.ClientClose (some "use of closed network connection")]) ∧
    liveCourier.Run (Transport.closable 1 ⟨none, "", ""⟩) "ls" [Event.ClientClose none] =
      (Res.ret ("", some
          "Error creating new SSH session: Error creating new SSH session: EOF"),
        [Event.NewSession (Except.error "EOF")]) ∧
    liveCourier.RunWithEnv (Transport.closable 1 ⟨none, "", ""⟩) "ls" ["A=B"]
        [Event.ClientClose none] =
      (Res.ret ("", some
          "Error creating new SSH session: Error creating new SSH session: EOF"),
        [Event.NewSession (Except.error "EOF")]) := by
  refine ⟨by decide, by decide, by decide, by decide⟩

/-! ## The fuel of `doPrintf` never runs out -/

/-- Dropping a prefix does not lengthen a list. -/
theorem length_dropWhile_le_self {α : Type} (q : α → Bool) (l : List α) :
    (l.dropWhile q).length ≤ l.length :=
  (List.dropWhile_sublist q).length_le

/-- The number loop leaves no more than it was given. -/
theorem fmt.parsenumLoop_length (l : List Char) :
    ∀ num isnum, (fmt.parsenumLoop l num isnum).2.2.length ≤ l.length := by
  induction l with
  | nil => intro num isnum; simp [fmt.parsenumLoop]
  | cons c cs ih =>
    intro num isnum
    unfold fmt.parsenumLoop
    split
    · split
      · simp
      · exact le_trans (ih _ _) (Nat.le_succ _)
    · simp

/-- An argument index leaves no more than it was given. -/
theorem fmt.parseArgNumber_length (l : List Char) :
    (fmt.parseArgNumber l).1.length ≤ l.length := by
  unfold fmt.parseArgNumber
  split
  · simp
  · simp only
    split
    · simp
    · rename_i x rest heq
      have h1 := length_dropWhile_le_self (fun c => decide (c ≠ ']')) (l.drop 1)
      rw [heq] at h1
      have h2 : (l.drop 1).length ≤ l.length := by simp
      have h3 : rest.length ≤ l.length := by
        simp only [List.length_cons] at h1
        omega
      split <;> exact h3

/-- The argument-index step leaves no more than it was given. -/
theorem fmt.argNumber_length (d : fmt.Directive) :
    (fmt.argNumber d).rest.length ≤ d.rest.length := by
  unfold fmt.argNumber
  split
  · exact fmt.parseArgNumber_length d.rest
  · simp

/-- The width step leaves no more than it was given. -/
theorem fmt.width_length (d : fmt.Directive) :
    (fmt.width d).rest.length ≤ d.rest.length := by
  unfold fmt.width
  split
  · rename_i r heq
    simp [heq]
  · exact fmt.parsenumLoop_length d.rest 0 false

/-- The precision step leaves no more than it was given. -/
theorem fmt.precision_length (d : fmt.Directive) :
    (fmt.precision d).rest.length ≤ d.rest.length := by
  unfold fmt.precision
  split
  · rename_i c r heq
    have h1 := fmt.argNumber_length
      ⟨c :: r, d.afterIndex, if d.afterIndex then false else d.goodArgNum, d.out⟩
    simp only at h1
    rw [heq]
    simp only [List.length_cons] at h1 ⊢
    split
    · rename_i r1 heq1
      rw [heq1] at h1
      simp only [List.length_cons] at h1 ⊢
      omega
    · have h2 := fmt.parsenumLoop_length
        (fmt.argNumber ⟨c :: r, d.afterIndex, if d.afterIndex then false else d.goodArgNum,
          d.out⟩).rest 0 false
      simp only [fmt.parsenum]
      omega
  · exact le_refl _

/-- The verb step leaves no more than it was given. -/
theorem fmt.verb_length (d : fmt.Directive) :
    (fmt.verb d).2.length ≤ d.rest.length := by
  unfold fmt.verb
  split
  · simp
  · rename_i v rest heq
    rw [heq]
    split
    · simp
    · split <;> simp

/-- A directive leaves no more of the format than it was given. -/
theorem fmt.directive_length (format : List Char) :
    (fmt.directive format).2.length ≤ format.length := by
  unfold fmt.directive
  simp only
  have h0 := length_dropWhile_le_self fmt.isFlag format
  have h1 := fmt.argNumber_length ⟨format.dropWhile fmt.isFlag, false, true, []⟩
  have h2 := fmt.width_length (fmt.argNumber ⟨format.dropWhile fmt.isFlag, false, true, []⟩)
  have h3 := fmt.precision_length
    (fmt.width (fmt.argNumber ⟨format.dropWhile fmt.isFlag, false, true, []⟩))
  simp only at h1
  refine le_trans (fmt.verb_length _) ?_
  split
  · omega
  · have h4 := fmt.argNumber_length (fmt.precision
      (fmt.width (fmt.argNumber ⟨format.dropWhile fmt.isFlag, false, true, []⟩)))
    omega

/-- Any fuel above the length of the format gives the same text: the fuel
`Sprintf` starts with is never exhausted. -/
theorem fmt.doPrintf_fuel (fuel1 : Nat) :
    ∀ fuel2 format, format.length < fuel1 → format.length < fuel2 →
      fmt.doPrintf fuel1 format = fmt.doPrintf fuel2 format := by
  induction fuel1 with
  | zero => intro fuel2 format h; exact absurd h (Nat.not_lt_zero _)
  | succ n ih =>
    intro fuel2 format h1 h2
    cases fuel2 with
    | zero => exact absurd h2 (Nat.not_lt_zero _)
    | succ m =>
      unfold fmt.doPrintf
      simp only
      split
      · rfl
      · rename_i x r heq
        have hd := length_dropWhile_le_self (fun c => decide (c ≠ '%')) format
        rw [heq] at hd
        simp only [List.length_cons] at hd
        have hr := fmt.directive_length r
        rw [ih m (fmt.directive r).2 (by omega) (by omega)]

end courier
